import Mathlib

/-!
# Voice Finance Tracker — verification of the specification against the code

Shallow embedding of the decision logic of the `voice-finance-tracker`
repository.  The React frontend (`frontend/src/App.js`,
`frontend/src/api.js`, `frontend/src/components/ConfirmDialog.js`) is
embedded directly from its source.  The backend engine (command parsing,
ambiguity resolution, budget evaluation) is not part of the available
sources, so those components are modelled from the specification; each
such definition carries a doc comment starting with `Modelled from the
spec:`.

Conventions: JavaScript numbers are embedded as `ℚ` (with `NaN` made
explicit through `Option`/dedicated constructors where the code tests for
it), calendar days as `ℤ` day numbers, and fallible operations as
`Option`/`Except`.
-/

namespace VFT

/-! ## JS-style numeric helpers -/

/-- Embedding of the JS rounding function on a rational: halves round
toward positive infinity, as in JavaScript. -/
def jsRound (q : ℚ) : ℤ := ⌊q + 1/2⌋

/-! ## Category catalog (shared data model)

`CatEntry` is the Category Catalog entry of the data model: a canonical
key, its accepted synonyms, and an optional budget limit. -/

structure CatEntry where
  key : String
  synonyms : List String
  limit : Option ℚ
deriving Repr, DecidableEq

/-- The category catalog: an ordered list of entries (declaration order
is significant for alert tie-breaking). -/
abbrev Catalog := List CatEntry

/-! ## Frontend: `formatINR` (App.js lines 46–56)

The function guards null, undefined and any value whose Number
conversion is NaN, and otherwise formats through the en-IN INR currency
formatter with minimum and maximum fraction digits both 2.  The input is
abstracted by the outcome of the JS checks: null, undefined, a value
converting to NaN, or a value converting to a finite number q. -/

inductive JSNumInput where
  | null
  | undefined
  | nan
  | num (q : ℚ)
deriving Repr, DecidableEq

/-- Two-digit zero-padded decimal string of the paise part. -/
def padTwo (n : ℕ) : String := if n < 10 then "0" ++ toString n else toString n

/-- Indian digit grouping on a reversed digit list: a group of three
(least-significant digits), then groups of two.  Input and output are in
least-significant-first order. -/
def group2 : List Char → List Char
  | [] => []
  | [a] => [a]
  | [a, b] => [a, b]
  | a :: b :: rest => a :: b :: ',' :: group2 rest

/-- First group of three for the Indian grouping (reversed digit list). -/
def group3 : List Char → List Char
  | [] => []
  | [a] => [a]
  | [a, b] => [a, b]
  | [a, b, c] => [a, b, c]
  | a :: b :: c :: rest => a :: b :: c :: ',' :: group2 rest

/-- Integer part of an amount rendered with `en-IN` grouping
(e.g. `1234567 ↦ "12,34,567"`). -/
def indianGroupedStr (n : ℕ) : String :=
  String.mk ((group3 (toString n).data.reverse).reverse)

/-- Model of the host en-IN INR number formatter
on a finite number: optional sign, rupee sign, grouped integer
part, a dot, and exactly two fraction digits (half-up rounding to
paise). -/
def formatINRNumber (q : ℚ) : String :=
  let paise : ℕ := (jsRound (|q| * 100)).toNat
  (if q < 0 then "-" else "") ++ "₹" ++ indianGroupedStr (paise / 100) ++ "." ++ padTwo (paise % 100)

/-- Embedding of formatINR from App.js lines 46–56: the null, undefined
and NaN guard returns the zero-rupee string, every finite number is
formatted as INR currency. -/
def formatINR : JSNumInput → String
  | .null => "₹0.00"
  | .undefined => "₹0.00"
  | .nan => "₹0.00"
  | .num q => formatINRNumber q

/-! ## Frontend: `titleCase` (App.js lines 58–64)

`titleCase` replaces underscores by spaces and upper-cases every
character that starts a word (JS `\b\w` with ASCII word characters). -/

def isWordChar (c : Char) : Bool := c.isAlphanum

/-- Upper-case characters that follow a non-word character; `prev` is
the preceding character (a space for the start of the string). -/
def capWords (prev : Char) : List Char → List Char
  | [] => []
  | c :: cs => (if isWordChar c && !isWordChar prev then c.toUpper else c) :: capWords c cs

def titleCase (s : String) : String :=
  String.mk (capWords ' ' (s.data.map fun c => if c = '_' then ' ' else c))

/-! ## Frontend: budget guesses and `categoryData` (App.js 32–44, 658–671)

The constant BUDGET_GUESSES is the per-category budget table of the
frontend; a category missing from the table falls back to 4000. -/

def BUDGET_GUESSES : List (String × ℚ) :=
  [("food", 10000), ("transport", 4000), ("entertainment", 3000),
   ("shopping", 5000), ("utilities", 5000), ("health", 3000),
   ("personal", 2000), ("gifts", 2000), ("savings", 6000),
   ("uncategorized", 2000), ("other", 2500)]

/-- Budget lookup with the 4000 default, as in the categoryData memo. -/
def budgetFor (c : String) : ℚ := (BUDGET_GUESSES.lookup c).getD 4000

/-- One entry of the frontend `categoryData` memo. -/
structure CategoryDatum where
  category : String
  total : ℚ
  budget : ℚ
  percentage : ℤ
deriving Repr, DecidableEq

/-- Embedding of categoryData (App.js 658–671): for every normalized category total
the budget is looked up (default 4000) and the percentage computed as
the rounded value of amount over budget times 100 — 0 when the budget is falsy. -/
def categoryData (totals : List (String × ℚ)) : List CategoryDatum :=
  totals.map fun p =>
    let budget := budgetFor p.1
    let percentage : ℤ := if budget = 0 then 0 else jsRound (p.2 / budget * 100)
    ⟨titleCase p.1, p.2, budget, percentage⟩

/-- The Category Summary badge (App.js 1184–1189): text is rendered only
when `percentage > 80`, reading `⚠️ Over Budget` above 100 and
`⚠️ Warning` otherwise. -/
def alertBadge (p : ℤ) : Option String :=
  if p > 80 then some (if p > 100 then "⚠️ Over Budget" else "⚠️ Warning") else none

/-! ## Frontend: `computeDailySpending` (App.js 231–253)

Calendar days are embedded as integer day numbers (the ISO date key of
the code becomes the day number itself); the locale short weekday label
becomes a weekday name taken modulo 7. -/

/-- A recent expense as it reaches computeDailySpending after
mapRecentExpenses: a date key and a numeric amount. -/
structure RecentExpense where
  date : ℤ
  amount : ℚ
deriving Repr, DecidableEq

/-- Weekday label of a day number, modelling the locale short weekday. -/
def dayName (d : ℤ) : String :=
  ["Sun", "Mon", "Tue", "Wed", "Thu", "Fri", "Sat"].getD (d % 7).toNat "Sun"

/-- One chart bucket: ISO key (as day number), weekday label, amount. -/
structure DayBucket where
  key : ℤ
  day : String
  amount : ℚ
deriving Repr, DecidableEq

/-- The seven zero-initialised buckets, oldest day first (the JS loop
runs `offset = 6 .. 0` pushing `today - offset`). -/
def initBuckets (today : ℤ) : List DayBucket :=
  (List.range 7).map fun i => ⟨today - 6 + i, dayName (today - 6 + i), 0⟩

/-- One step of the per-expense loop: the bucket whose key equals the
date of the expense accumulates the amount; other buckets (and expenses
outside the window) are untouched.  The seven keys are distinct, so the
single-object update of the JS code coincides with this map. -/
def applyExpense (bs : List DayBucket) (e : RecentExpense) : List DayBucket :=
  bs.map fun b => if b.key = e.date then { b with amount := b.amount + e.amount } else b

/-- Embedding of computeDailySpending (App.js 231–253): build the 7-day buckets,
fold the expenses in, and project to `(day, amount)` pairs. -/
def computeDailySpending (today : ℤ) (es : List RecentExpense) : List (String × ℚ) :=
  (es.foldl applyExpense (initBuckets today)).map fun b => (b.day, b.amount)

/-! ## Frontend: `normalizeOption` (ConfirmDialog.js 3–17)

JS option values are embedded by shape: `null`, `undefined`, a string,
or an object with the optional string fields the function consults plus
an optional primitive `value`.  Field access on a missing field is
`none`; JS `||` falls through falsy values (absent or empty string) and
`??` falls through only absent values. -/

inductive JSPrim where
  | pstr (s : String)
  | pnum (q : ℚ)
deriving Repr, DecidableEq

/-- String conversion of a primitive; the numeric rendering models the
host conversion. -/
def primToString : JSPrim → String
  | .pstr s => s
  | .pnum q => toString q

structure OptFields where
  key : Option String
  label : Option String
  text : Option String
  command : Option String
  value : Option JSPrim
deriving Repr, DecidableEq

inductive JSOption where
  | nullv
  | undef
  | str (s : String)
  | obj (o : OptFields)
deriving Repr, DecidableEq

/-- Truthiness filter for the JS or-operator on an optional string field: a present,
non-empty string passes; an absent or empty one falls through. -/
def truthy : Option String → Option String
  | some s => if s = "" then none else some s
  | none => none

/-- The value slot of a normalized option: a primitive, or the object
itself (when the coalescing chain over value, command, text falls all
the way through to the option). -/
inductive NormValue where
  | prim (p : JSPrim)
  | selfObj (o : OptFields)
deriving Repr, DecidableEq

structure NormOption where
  key : String
  label : String
  value : Option NormValue
deriving Repr, DecidableEq

/-- Label selection: the first truthy among label, text, command, else
the string conversion of the value (or of the object itself). -/
def objLabel (o : OptFields) : String :=
  ((truthy o.label).orElse fun _ => (truthy o.text).orElse fun _ => truthy o.command).getD
    (match o.value with
     | some p => primToString p
     | none => "[object Object]")

/-- Value selection: the first present among value, command, text, else
the object itself. -/
def objValue (o : OptFields) : NormValue :=
  match o.value with
  | some p => .prim p
  | none =>
    match o.command with
    | some c => .prim (.pstr c)
    | none =>
      match o.text with
      | some t => .prim (.pstr t)
      | none => .selfObj o

/-- Embedding of normalizeOption (ConfirmDialog.js 3–17).  The leading
falsiness test catches null, undefined and the empty string, producing
the option-null record with no value field. -/
def normalizeOption : JSOption → NormOption
  | .nullv => ⟨"option-null", "Unknown option", none⟩
  | .undef => ⟨"option-null", "Unknown option", none⟩
  | .str s =>
    if s = "" then ⟨"option-null", "Unknown option", none⟩
    else ⟨s, s, some (.prim (.pstr s))⟩
  | .obj o =>
    let label := objLabel o
    ⟨(truthy o.key).getD label, label, some (objValue o)⟩

/-! ## Frontend: `apiFetch` (api.js 3–30)

The network response is embedded as its observable fields: `ok`,
`status`, and the parsed body — `none` when `response.json()` rejected
(invalid JSON) or produced `null`.  The body itself is embedded by the
two fields `apiFetch` consults. -/

structure JsonBody where
  error : Option String
  message : Option String
deriving Repr, DecidableEq

structure FetchResponse where
  ok : Bool
  status : ℕ
  body : Option JsonBody
deriving Repr, DecidableEq

/-- The thrown `Error`: message plus the `status` and `body` fields the
code attaches to it. -/
structure ApiError where
  message : String
  status : ℕ
  body : Option JsonBody
deriving Repr, DecidableEq

/-- Error message selection: the first truthy among the error and
message fields of the parsed body, else the request-failed fallback with
the status number. -/
def apiErrorMessage (status : ℕ) (body : Option JsonBody) : String :=
  (match body with
   | none => none
   | some b => (truthy b.error).orElse fun _ => truthy b.message).getD
    ("Request failed: " ++ toString status)

/-- Embedding of apiFetch (api.js 3–30) restricted to its response handling: an ok
response returns the parsed body (possibly `null`), a non-ok response
throws an `ApiError`. -/
def apiFetch (r : FetchResponse) : Except ApiError (Option JsonBody) :=
  if r.ok then .ok r.body
  else .error ⟨apiErrorMessage r.status r.body, r.status, r.body⟩

/-! ## Engine: normalized transcripts and intents

Modelled from the spec: the backend Voice Command Interpretation engine
(Lexical Normalizer, Command Parser, Ambiguity Resolver, Ledger Service)
is not among the available sources — only its frontend callers are — so
it is modelled from §§4.1–4.4 of the specification.  A transcript is
embedded as the output of the Normalizer: a sequence of lower-cased word
tokens and numeric tokens (spoken numbers and digit sequences become
`num` tokens, currency words are stripped). -/

inductive Token where
  | word (w : String)
  | num (q : ℚ)
deriving Repr, DecidableEq

abbrev Transcript := List Token

/-- An expense of the ledger: insertion-ordered id, positive amount,
canonical category, date as a day number. -/
structure Expense where
  id : ℕ
  amount : ℚ
  category : String
  date : ℤ
deriving Repr, DecidableEq

abbrev Ledger := List Expense

/-- Prepositions introducing the category fragment (§4.1). -/
def isPrep (w : String) : Bool := w = "to" || w = "on" || w = "for"

/-- Modelled from the spec: number extraction (§4.1) — the first numeric
token of the normalized transcript, if any. -/
def extractAmount : Transcript → Option ℚ
  | [] => none
  | .num q :: _ => some q
  | .word _ :: ts => extractAmount ts

/-- The word tokens of a transcript tail (the clause after a
preposition). -/
def wordsOf : Transcript → List String
  | [] => []
  | .word w :: ts => w :: wordsOf ts
  | .num _ :: ts => wordsOf ts

/-- Modelled from the spec: category-fragment extraction (§4.1) — the
words following the first preposition, to the end of the clause; `none`
when no preposition occurs. -/
def fragTokens : Transcript → Option (List String)
  | [] => none
  | .word w :: ts => if isPrep w then some (wordsOf ts) else fragTokens ts
  | .num _ :: ts => fragTokens ts

/-- Join fragment words with single spaces. -/
def joinWords : List String → String
  | [] => ""
  | [w] => w
  | w :: ws => w ++ " " ++ joinWords ws

/-- Does the transcript contain one of the given words? -/
def hasAnyWord (ws : List String) (t : Transcript) : Bool :=
  t.any fun tok =>
    match tok with
    | .word w => ws.contains w
    | .num _ => false

inductive Period where
  | today
  | week
  | month
deriving Repr, DecidableEq

inductive Intent where
  | add (amount : ℚ) (frag : List String)
  | deleteLast
  | query (period : Period)
  | showRecent
  | weeklySummary
  | monthlySummary
  | unknown
deriving Repr, DecidableEq

/-- Query period slot: today, week or month, defaulting to today. -/
def periodOf (t : Transcript) : Period :=
  if hasAnyWord ["week", "weekly"] t then .week
  else if hasAnyWord ["month", "monthly"] t then .month
  else .today

/-- Modelled from the spec: the Command Parser (§4.2) — ordered grammar
classes, first match wins.  An Add verb with no resolvable amount or no
category fragment is a parse failure (`unknown`), not an ambiguity. -/
def parseIntent (t : Transcript) : Intent :=
  if hasAnyWord ["add", "spent", "paid"] t then
    match extractAmount t, fragTokens t with
    | some a, some f => if f = [] then .unknown else .add a f
    | _, _ => .unknown
  else if hasAnyWord ["delete", "remove", "undo"] t && hasAnyWord ["last", "recent"] t then
    .deleteLast
  else if hasAnyWord ["what", "whats", "how"] t && hasAnyWord ["balance", "total", "spent"] t then
    .query (periodOf t)
  else if hasAnyWord ["show", "list"] t && hasAnyWord ["recent", "expenses"] t then
    .showRecent
  else if hasAnyWord ["weekly"] t && hasAnyWord ["summary", "report"] t then
    .weeklySummary
  else if hasAnyWord ["monthly"] t && hasAnyWord ["summary", "report"] t then
    .monthlySummary
  else .unknown

/-! ## Engine: category resolution (§4.1, §4.3) -/

/-- Does the phrase exactly match the key of the entry or one of its
synonyms?  (Tokens are already lower-cased by the Normalizer.) -/
def catMatchesExact (s : String) (c : CatEntry) : Bool :=
  s == c.key || c.synonyms.contains s

/-- Levenshtein distance with structural fuel (the fuel passed by
editDistance always suffices). -/
def levF : ℕ → List Char → List Char → ℕ
  | 0, xs, ys => xs.length + ys.length
  | _ + 1, [], ys => ys.length
  | _ + 1, xs, [] => xs.length
  | f + 1, x :: xs, y :: ys =>
    if x = y then levF f xs ys
    else 1 + min (levF f xs (y :: ys)) (min (levF f (x :: xs) ys) (levF f xs ys))

def editDistance (a b : String) : ℕ :=
  levF (a.length + b.length + 1) a.data b.data

/-- Tolerant match: edit distance at most 1 to the key or a synonym. -/
def catMatchesTol (s : String) (c : CatEntry) : Bool :=
  (c.key :: c.synonyms).any fun t => editDistance s t ≤ 1

def exactCands (s : String) (cat : Catalog) : List CatEntry :=
  cat.filter (catMatchesExact s)

def tolCands (s : String) (cat : Catalog) : List CatEntry :=
  cat.filter (catMatchesTol s)

inductive Resolution where
  | resolved (key : String)
  | ambiguous (cands : List CatEntry)
  | noMatch
deriving Repr, DecidableEq

/-- Modelled from the spec: synonym resolution (§4.1) — an exact match
yields the single canonical category; otherwise edit-distance-1
tolerance is tried, with no candidate routing to `noMatch` and several
candidates to `ambiguous`. -/
def resolveCategory (s : String) (cat : Catalog) : Resolution :=
  match exactCands s cat with
  | [c] => .resolved c.key
  | [] =>
    match tolCands s cat with
    | [] => .noMatch
    | [c] => .resolved c.key
    | c₁ :: c₂ :: cs => .ambiguous (c₁ :: c₂ :: cs)
  | c₁ :: c₂ :: cs => .ambiguous (c₁ :: c₂ :: cs)

/-! ## Engine: the command pipeline (§4.3, §4.4, §6) -/

structure OptionItem where
  label : String
  value : Transcript
deriving Repr, DecidableEq

/-- The response contract of the engine (§6), restricted to the fields the
claims speak about. -/
structure VoiceResponse where
  reply : String
  success : Bool
  error : Option String
  needsConfirmation : Bool
  confirmationPrompt : Option String
  options : List OptionItem
deriving Repr, DecidableEq

/-- The literal resubmission value of a confirmation option for the
candidate category `k`: the full unambiguous command, e.g.
"Add 500 to entertainment" (§4.3). -/
def mkOptionValue (a : ℚ) (k : String) : Transcript :=
  [.word "add", .num a, .word "to", .word k]

def confirmResponse (prompt : String) (opts : List OptionItem) : VoiceResponse :=
  ⟨prompt, true, none, true, some prompt, opts⟩

def plainResponse (reply : String) : VoiceResponse :=
  ⟨reply, true, none, false, none, []⟩

def failResponse (reply err : String) : VoiceResponse :=
  ⟨reply, false, some err, false, none, []⟩

/-- Modelled from the spec: the end-to-end command pipeline (§2, §4.3,
§4.4) — parse the transcript, validate the amount, resolve the category
(halting with confirmation options on ambiguity), and apply the
resolved intent to the ledger.  Mutations append to an insertion-ordered
ledger; delete-last removes the latest insertion. -/
def processCommand (cat : Catalog) (led : Ledger) (today : ℤ) (t : Transcript) :
    VoiceResponse × Ledger :=
  match parseIntent t with
  | .add a f =>
    if a ≤ 0 then
      (failResponse "Amount must be a positive number." "ValidationError", led)
    else
      match resolveCategory (joinWords f) cat with
      | .resolved k =>
        (plainResponse ("Added " ++ toString a ++ " to " ++ k ++ "."),
         led ++ [⟨led.length, a, k, today⟩])
      | .noMatch =>
        (confirmResponse "Which category did you mean?"
          (cat.map fun c => ⟨c.key, mkOptionValue a c.key⟩), led)
      | .ambiguous cs =>
        (confirmResponse "Did you mean one of these categories?"
          (cs.map fun c => ⟨c.key, mkOptionValue a c.key⟩), led)
  | .deleteLast =>
    if led.isEmpty then (failResponse "Nothing to delete." "EmptyLedger", led)
    else (plainResponse "Deleted the last expense.", led.dropLast)
  | .query _ => (plainResponse "Here is your total.", led)
  | .showRecent => (plainResponse "Here are your recent expenses.", led)
  | .weeklySummary => (plainResponse "Weekly summary.", led)
  | .monthlySummary => (plainResponse "Monthly summary.", led)
  | .unknown => (failResponse "Sorry, I could not understand that." "ParseFailure", led)

/-- Catalog well-formedness: the synonym sets (key included) of distinct
entries are disjoint — the catalog is a mapping from phrase to canonical
category (§3). -/
def SharesPhrase (c d : CatEntry) : Prop :=
  ∃ s, s ∈ c.key :: c.synonyms ∧ s ∈ d.key :: d.synonyms

instance (c d : CatEntry) : Decidable (SharesPhrase c d) :=
  decidable_of_iff (∃ s ∈ c.key :: c.synonyms, s ∈ d.key :: d.synonyms)
    ⟨fun ⟨s, h₁, h₂⟩ => ⟨s, h₁, h₂⟩, fun ⟨s, h₁, h₂⟩ => ⟨s, h₁, h₂⟩⟩

def WellFormed (cat : Catalog) : Prop :=
  cat.Pairwise fun c d => ¬ SharesPhrase c d

instance (cat : Catalog) : Decidable (WellFormed cat) :=
  List.instDecidablePairwise cat

/-! ## Engine: budget evaluator (§4.5)

Modelled from the spec: the Budget Evaluator is not among the available
sources (the frontend only consumes its `budget_alerts` /
`budget_alert` output), so it is modelled from §4.5. -/

structure BudgetAlert where
  idx : ℕ
  category : String
  pct : ℚ
  text : String
deriving Repr, DecidableEq

/-- Severity wording (§4.5). -/
def alertText (k : String) (pct : ℚ) : String :=
  k ++ ": " ++ (if 100 < pct then "Over Budget" else "Warning")

/-- Modelled from the spec: the unsorted alert candidates — every
catalog category with a configured limit and a spend total whose
percentage `total / limit * 100` exceeds 80, tagged with its catalog
declaration index. -/
def candsFrom (totals : List (String × ℚ)) : ℕ → Catalog → List BudgetAlert
  | _, [] => []
  | i, c :: cs =>
    (match c.limit, totals.lookup c.key with
     | some l, some t =>
       if 80 < t / l * 100 then [⟨i, c.key, t / l * 100, alertText c.key (t / l * 100)⟩]
       else []
     | _, _ => []) ++ candsFrom totals (i + 1) cs

/-- Descending-percentage order with catalog-order tie-break (a total
preorder used for sorting). -/
def alertRel (a b : BudgetAlert) : Prop :=
  b.pct < a.pct ∨ (a.pct = b.pct ∧ a.idx ≤ b.idx)

instance : DecidableRel alertRel := fun a b => by
  unfold alertRel; infer_instance

instance : IsTotal BudgetAlert alertRel where
  total a b := by
    rcases lt_trichotomy a.pct b.pct with h | h | h
    · exact Or.inr (Or.inl h)
    · rcases Nat.le_total a.idx b.idx with hi | hi
      · exact Or.inl (Or.inr ⟨h, hi⟩)
      · exact Or.inr (Or.inr ⟨h.symm, hi⟩)
    · exact Or.inl (Or.inl h)

instance : IsTrans BudgetAlert alertRel where
  trans a b c hab hbc := by
    rcases hab with h₁ | ⟨e₁, i₁⟩
    · rcases hbc with h₂ | ⟨e₂, _⟩
      · exact Or.inl (h₂.trans h₁)
      · exact Or.inl (e₂ ▸ h₁)
    · rcases hbc with h₂ | ⟨e₂, i₂⟩
      · exact Or.inl (e₁ ▸ h₂)
      · exact Or.inr ⟨e₁.trans e₂, i₁.trans i₂⟩

/-- Modelled from the spec: the ordered alert list (§4.5) — candidates
sorted by descending percentage, ties broken by catalog declaration
order. -/
def budgetAlerts (cat : Catalog) (totals : List (String × ℚ)) : List BudgetAlert :=
  List.insertionSort alertRel (candsFrom totals 0 cat)

/-- Modelled from the spec: the `budget_alert` response field (§6) — the
single highest-severity alert, if any. -/
def budgetAlert (cat : Catalog) (totals : List (String × ℚ)) : Option String :=
  (budgetAlerts cat totals).head?.map (·.text)

/-! ## Manual add (App.js 585–609 plus the `/api/add` endpoint)

The frontend `handleAddExpense` is embedded from its source; the
`/api/add` backend it calls is modelled from the spec. -/

/-- The manual form state: the Number conversion of the amount input is
embedded as an optional rational, none standing for NaN (the empty
input converts to 0). -/
structure NewExpenseForm where
  amount : Option ℚ
  category : String
deriving Repr, DecidableEq

inductive Toast where
  | success (message : String)
  | error (message : String)
deriving Repr, DecidableEq

/-- Modelled from the spec: the `/api/add` endpoint (§6) — a pre-check
rejects non-positive amounts and unresolved categories before mutation;
a valid request appends the expense and answers with a message. -/
def apiAdd (cat : Catalog) (led : Ledger) (today : ℤ) (a : ℚ) (c : String) :
    Except String (String × Ledger) :=
  if a ≤ 0 then .error "Amount must be a positive number."
  else if cat.any fun e => e.key == c then
    .ok ("Expense added.", led ++ [⟨led.length, a, c, today⟩])
  else .error "Unknown category."

/-- Result of the manual-add flow: the toast shown, the resulting
ledger, and the confirmation dialog state (never opened by this flow —
`handleAddExpense` never touches `voiceConfirm`). -/
structure AddOutcome where
  toast : Toast
  ledger : Ledger
  confirm : Option (List OptionItem)
deriving Repr, DecidableEq

/-- Embedding of handleAddExpense (App.js 585–609): the falsiness and
sign test rejects NaN, 0 and negatives before any request; an empty
category is rejected next; otherwise the add request runs and its error
or success message becomes the toast. -/
def handleAddExpense (cat : Catalog) (led : Ledger) (today : ℤ) (form : NewExpenseForm) :
    AddOutcome :=
  match form.amount with
  | none => ⟨.error "Enter a positive amount.", led, none⟩
  | some a =>
    if a ≤ 0 then ⟨.error "Enter a positive amount.", led, none⟩
    else if form.category = "" then ⟨.error "Select a category.", led, none⟩
    else
      match apiAdd cat led today a form.category with
      | .ok (msg, led') => ⟨.success msg, led', none⟩
      | .error e => ⟨.error e, led, none⟩

/-! # Theorems -/

/-! ## Helper lemmas -/

/-- Zero-padding to two digits really yields two characters for any
paise value. -/
theorem padTwo_length : ∀ n < 100, (padTwo n).length = 2 := by decide

/-- The fold of computeDailySpending accumulates, for every bucket,
exactly the amounts of the expenses dated with the key of the bucket. -/
theorem foldl_applyExpense (es : List RecentExpense) (bs : List DayBucket) :
    es.foldl applyExpense bs =
      bs.map fun b =>
        { b with amount := b.amount + ((es.filter fun e => e.date = b.key).map (·.amount)).sum } := by
  induction es generalizing bs with
  | nil => simp
  | cons e es ih =>
    rw [List.foldl_cons, ih]
    unfold applyExpense
    rw [List.map_map]
    apply List.map_congr_left
    intro b _
    rcases b with ⟨k, d, amt⟩
    by_cases hk : k = e.date
    · subst hk
      simp [List.filter_cons, add_assoc]
    · have hk' : ¬ e.date = k := fun h => hk h.symm
      simp [hk, hk', List.filter_cons]

/-- Claim C7: for every expense list the daily chart series has exactly
one bucket per day for the last seven consecutive calendar days in
chronological order, the amount of each day being the sum of the amounts of
the expenses dated that day (zero when there are none). -/
theorem computeDailySpending_buckets (today : ℤ) (es : List RecentExpense) :
    computeDailySpending today es =
      (List.range 7).map fun i =>
        (dayName (today - 6 + i),
         ((es.filter fun e => e.date = today - 6 + i).map (·.amount)).sum) := by
  unfold computeDailySpending initBuckets
  rw [foldl_applyExpense, List.map_map, List.map_map]
  apply List.map_congr_left
  intro i _
  simp

/-- Claim C8: formatINR is total — null, undefined and NaN
inputs give exactly `"₹0.00"`, and every finite numeric input is
rendered as INR currency (rupee sign, grouped integer part) with exactly
two fraction digits. -/
theorem formatINR_total :
    formatINR .null = "₹0.00" ∧ formatINR .undefined = "₹0.00" ∧ formatINR .nan = "₹0.00" ∧
    ∀ q : ℚ, ∃ intPart frac,
      formatINR (.num q) = (if q < 0 then "-" else "") ++ "₹" ++ intPart ++ "." ++ frac ∧
      frac.length = 2 := by
  refine ⟨rfl, rfl, rfl, fun q => ?_⟩
  refine ⟨indianGroupedStr ((jsRound (|q| * 100)).toNat / 100),
          padTwo ((jsRound (|q| * 100)).toNat % 100), rfl, ?_⟩
  exact padTwo_length _ (Nat.mod_lt _ (by norm_num))

/-- Claim C9 counterexample: the empty string is falsy in JavaScript,
so normalizeOption of the empty string takes the falsy branch and yields
the option-null record — not the record with empty key, label and value
that the string case of the claim demands. -/
theorem normalizeOption_empty_string_cex :
    normalizeOption (.str "") = ⟨"option-null", "Unknown option", none⟩ ∧
    normalizeOption (.str "") ≠ ⟨"", "", some (.prim (.pstr ""))⟩ := by
  constructor <;> decide

/-- Claim C9 (amended): normalizeOption is total; null, undefined — and
also the empty string, which is equally falsy — map to the option-null
record with no value; every non-empty string s maps to the record with
key, label and value all equal to s; and every object maps to a record
with defined key and label, the label falling back through label, text,
command, then the string conversion of the value or of the object. -/
theorem normalizeOption_total (o : JSOption) :
    (o = .nullv ∨ o = .undef ∨ o = .str "" →
      normalizeOption o = ⟨"option-null", "Unknown option", none⟩) ∧
    (∀ s, o = .str s → s ≠ "" →
      normalizeOption o = ⟨s, s, some (.prim (.pstr s))⟩) ∧
    (∀ f, o = .obj f →
      (normalizeOption o).value = some (objValue f) ∧
      (∀ s, truthy f.key = some s → (normalizeOption o).key = s) ∧
      (truthy f.key = none → (normalizeOption o).key = (normalizeOption o).label) ∧
      (∀ s, truthy f.label = some s → (normalizeOption o).label = s) ∧
      (truthy f.label = none → ∀ s, truthy f.text = some s → (normalizeOption o).label = s) ∧
      (truthy f.label = none → truthy f.text = none → ∀ s, truthy f.command = some s →
        (normalizeOption o).label = s) ∧
      (truthy f.label = none → truthy f.text = none → truthy f.command = none →
        ∀ p, f.value = some p → (normalizeOption o).label = primToString p) ∧
      (truthy f.label = none → truthy f.text = none → truthy f.command = none →
        f.value = none → (normalizeOption o).label = "[object Object]")) := by
  refine ⟨?_, ?_, ?_⟩
  · rintro (rfl | rfl | rfl) <;> rfl
  · rintro s rfl hs
    simp [normalizeOption, hs]
  · rintro f rfl
    refine ⟨rfl, ?_, ?_, ?_, ?_, ?_, ?_, ?_⟩
    · intro s hs; simp [normalizeOption, hs]
    · intro hs; simp [normalizeOption, hs]
    · intro s hs; simp [normalizeOption, objLabel, hs, Option.orElse]
    · intro h₁ s h₂; simp [normalizeOption, objLabel, h₁, h₂, Option.orElse]
    · intro h₁ h₂ s h₃; simp [normalizeOption, objLabel, h₁, h₂, h₃, Option.orElse]
    · intro h₁ h₂ h₃ p hp; simp [normalizeOption, objLabel, h₁, h₂, h₃, hp, Option.orElse]
    · intro h₁ h₂ h₃ hv; simp [normalizeOption, objLabel, h₁, h₂, h₃, hv, Option.orElse]

/-- Witness for the amended C9 claim at the concrete non-empty string
"food". -/
theorem normalizeOption_total_witness :
    normalizeOption (.str "food") = ⟨"food", "food", some (.prim (.pstr "food"))⟩ :=
  (normalizeOption_total (.str "food")).2.1 "food" rfl (by decide)

/-- Claim C10 counterexample: a 500 response whose parsed body has an
error field holding the empty string, yet the thrown message is the
request-failed fallback because the or-operator skips the empty
string. -/
theorem apiFetch_empty_error_cex :
    apiFetch ⟨false, 500, some ⟨some "", none⟩⟩ =
      .error ⟨"Request failed: 500", 500, some ⟨some "", none⟩⟩ ∧
    ("Request failed: 500" : String) ≠ "" := by
  exact ⟨rfl, by decide⟩

/-- Claim C10 (amended): apiFetch returns the parsed body (possibly
null) on every ok response; on a non-ok response it throws an error
carrying the status and parsed body, whose message is the error field of
the body when that is a non-empty string, else the message field when
that is a non-empty string, else the request-failed fallback naming the
status. -/
theorem apiFetch_behavior (r : FetchResponse) :
    (r.ok = true → apiFetch r = .ok r.body) ∧
    (r.ok = false → ∃ e : ApiError,
      apiFetch r = .error e ∧ e.status = r.status ∧ e.body = r.body ∧
      (∀ b s, r.body = some b → truthy b.error = some s → e.message = s) ∧
      (∀ b s, r.body = some b → truthy b.error = none → truthy b.message = some s →
        e.message = s) ∧
      (∀ b, r.body = some b → truthy b.error = none → truthy b.message = none →
        e.message = "Request failed: " ++ toString r.status) ∧
      (r.body = none → e.message = "Request failed: " ++ toString r.status)) := by
  constructor
  · intro h; simp [apiFetch, h]
  · intro h
    refine ⟨⟨apiErrorMessage r.status r.body, r.status, r.body⟩, by simp [apiFetch, h], rfl, rfl,
      ?_, ?_, ?_, ?_⟩
    · intro b s hb hs; simp [apiErrorMessage, hb, hs, Option.orElse]
    · intro b s hb h₁ h₂; simp [apiErrorMessage, hb, h₁, h₂, Option.orElse]
    · intro b hb h₁ h₂; simp [apiErrorMessage, hb, h₁, h₂, Option.orElse]
    · intro hb; simp [apiErrorMessage, hb]

/-- Witness for the amended C10 claim: an ok response returns its body,
and a 404 whose body carries an error field throws with that message. -/
theorem apiFetch_behavior_witness :
    apiFetch ⟨true, 200, some ⟨none, some "hi"⟩⟩ = .ok (some ⟨none, some "hi"⟩) ∧
    ∃ e : ApiError, apiFetch ⟨false, 404, some ⟨some "missing", none⟩⟩ = .error e ∧
      e.message = "missing" := by
  constructor
  · exact (apiFetch_behavior ⟨true, 200, some ⟨none, some "hi"⟩⟩).1 rfl
  · obtain ⟨e, he, -, -, hmsg, -, -, -⟩ :=
      (apiFetch_behavior ⟨false, 404, some ⟨some "missing", none⟩⟩).2 rfl
    exact ⟨e, he, hmsg ⟨some "missing", none⟩ "missing" rfl (by decide)⟩

/-- Every budget the frontend uses is positive: the table values are,
and so is the `?? 4000` fallback. -/
theorem budgetFor_pos (c : String) : 0 < budgetFor c := by
  unfold budgetFor BUDGET_GUESSES
  simp only [List.lookup]
  repeat' split
  all_goals norm_num

/-- Claim C1 counterexample: food has configured limit 10000, and at a
spend of 8040 the percentage of the claim, total over limit times 100,
is 80.4 and exceeds 80, yet the code rounds to 80 first and renders no
alert badge. -/
theorem categoryData_rounding_cex :
    budgetFor "food" = 10000 ∧ (80 : ℚ) < 8040 / 10000 * 100 ∧
    (categoryData [("food", 8040)]).map (fun d => alertBadge d.percentage) = [none] := by
  have hp : jsRound ((8040 : ℚ) / 10000 * 100) = 80 := by
    unfold jsRound; rw [Int.floor_eq_iff]; norm_num
  have hb : budgetFor "food" = 10000 := by decide
  refine ⟨hb, by norm_num, ?_⟩
  simp [categoryData, hb, hp, alertBadge]

/-- Claim C1 (amended): for every category total the code computes the
rounded percentage of total over limit times 100 (limit defaulting
to 4000 and always positive), and the alert badge appears exactly when
that rounded percentage exceeds 80 — `⚠️ Warning` for 80 < p ≤ 100,
`⚠️ Over Budget` for p > 100, and none for p ≤ 80. -/
theorem categoryData_badge (totals : List (String × ℚ)) :
    ∀ d ∈ categoryData totals,
      0 < d.budget ∧
      d.percentage = jsRound (d.total / d.budget * 100) ∧
      (alertBadge d.percentage = some "⚠️ Over Budget" ↔ 100 < d.percentage) ∧
      (alertBadge d.percentage = some "⚠️ Warning" ↔ 80 < d.percentage ∧ d.percentage ≤ 100) ∧
      (alertBadge d.percentage = none ↔ d.percentage ≤ 80) := by
  intro d hd
  obtain ⟨p, -, rfl⟩ := List.mem_map.mp hd
  have hpos := budgetFor_pos p.1
  have hne : budgetFor p.1 ≠ 0 := ne_of_gt hpos
  refine ⟨hpos, by simp [hne], ?_, ?_, ?_⟩ <;>
    · unfold alertBadge
      split_ifs <;> simp_all <;> omega

/-- Witness for the amended C1 claim at the concrete totals
`[("food", 9000)]`. -/
theorem categoryData_badge_witness :
    (0 : ℚ) <
      (⟨titleCase "food", 9000, budgetFor "food",
        if budgetFor "food" = 0 then 0
        else jsRound ((9000 : ℚ) / budgetFor "food" * 100)⟩ : CategoryDatum).budget :=
  (categoryData_badge [("food", 9000)] _ (List.mem_singleton.mpr rfl)).1

/-- Claim C2 counterexample: travel has no configured budget limit,
yet at a spend of 5000 the default limit 4000 makes the code render the
`⚠️ Over Budget` badge — an alert for an unconfigured category. -/
theorem categoryData_default_cex :
    BUDGET_GUESSES.lookup "travel" = none ∧
    (categoryData [("travel", 5000)]).map (fun d => alertBadge d.percentage) =
      [some "⚠️ Over Budget"] := by
  have hp : jsRound ((5000 : ℚ) / 4000 * 100) = 125 := by
    unfold jsRound; rw [Int.floor_eq_iff]; norm_num
  have hb : budgetFor "travel" = 4000 := by decide
  refine ⟨by decide, ?_⟩
  simp [categoryData, hb, hp, alertBadge]

/-- Claim C2 (amended): a category without a configured budget limit is
assigned the default limit 4000 by the fallback, so an alert does fire for
it exactly when its rounded percentage against 4000 exceeds 80. -/
theorem categoryData_default_budget (c : String) (amt : ℚ)
    (h : BUDGET_GUESSES.lookup c = none) :
    categoryData [(c, amt)] = [⟨titleCase c, amt, 4000, jsRound (amt / 4000 * 100)⟩] ∧
    (alertBadge (jsRound (amt / 4000 * 100)) ≠ none ↔ 80 < jsRound (amt / 4000 * 100)) := by
  have hb : budgetFor c = 4000 := by unfold budgetFor; rw [h]; rfl
  constructor
  · simp [categoryData, hb]
  · unfold alertBadge
    split_ifs <;> simp_all

/-- Witness for the amended C2 claim at category "travel" with spend
5000. -/
theorem categoryData_default_budget_witness :
    categoryData [("travel", 5000)] =
      [⟨titleCase "travel", 5000, 4000, jsRound ((5000 : ℚ) / 4000 * 100)⟩] :=
  (categoryData_default_budget "travel" 5000 (by decide)).1

/-- Claim C6: a manual-add request with a missing (NaN) or
non-positive amount is rejected with a validation error before any
mutation — the ledger is unchanged, no expense is created, and no
confirmation dialog is opened — while a positive amount with a known
category succeeds with a message and appends exactly that expense. -/
theorem handleAddExpense_validation (cat : Catalog) (led : Ledger) (today : ℤ)
    (form : NewExpenseForm) :
    ((form.amount = none ∨ ∃ a, form.amount = some a ∧ a ≤ 0) →
      handleAddExpense cat led today form = ⟨.error "Enter a positive amount.", led, none⟩) ∧
    (∀ a, form.amount = some a → 0 < a → form.category ≠ "" →
      (cat.any fun e => e.key == form.category) = true →
      handleAddExpense cat led today form =
        ⟨.success "Expense added.", led ++ [⟨led.length, a, form.category, today⟩], none⟩) := by
  constructor
  · rintro (h | ⟨a, h, hle⟩)
    · simp [handleAddExpense, h]
    · simp [handleAddExpense, h, hle]
  · intro a ha hpos hcat hkey
    simp [handleAddExpense, ha, not_le.mpr hpos, hcat, apiAdd, hkey]

/-- Witness for the C6 claim: on an empty ledger, a NaN amount is
rejected without mutation and amount 250 on category `food`
succeeds. -/
theorem handleAddExpense_validation_witness :
    handleAddExpense [⟨"food", [], some 10000⟩] [] 0 ⟨none, "food"⟩ =
      ⟨.error "Enter a positive amount.", [], none⟩ ∧
    handleAddExpense [⟨"food", [], some 10000⟩] [] 0 ⟨some 250, "food"⟩ =
      ⟨.success "Expense added.", [⟨0, 250, "food", 0⟩], none⟩ := by
  constructor
  · exact (handleAddExpense_validation [⟨"food", [], some 10000⟩] [] 0 ⟨none, "food"⟩).1
      (Or.inl rfl)
  · exact (handleAddExpense_validation [⟨"food", [], some 10000⟩] [] 0 ⟨some 250, "food"⟩).2
      250 rfl (by decide) (by decide) (by decide)

/-! ## Engine helper lemmas -/

/-- Exact category matching is membership of the phrase in the
key-and-synonyms list of the entry. -/
theorem catMatchesExact_iff (s : String) (c : CatEntry) :
    catMatchesExact s c = true ↔ s ∈ c.key :: c.synonyms := by
  simp [catMatchesExact, List.mem_cons]

/-- In a well-formed catalog the key of an entry exactly matches only
that entry. -/
theorem exactCands_key {cat : Catalog} (hw : WellFormed cat) {c : CatEntry} (hc : c ∈ cat) :
    exactCands c.key cat = [c] := by
  unfold exactCands
  induction cat with
  | nil => cases hc
  | cons d ds ih =>
    rw [WellFormed, List.pairwise_cons] at hw
    rcases List.mem_cons.mp hc with rfl | hmem
    · rw [List.filter_cons_of_pos (by simp [catMatchesExact])]
      have hnil : ∀ e ∈ ds, ¬ catMatchesExact c.key e = true := fun e he hm =>
        hw.1 e he ⟨c.key, by simp, (catMatchesExact_iff _ _).mp hm⟩
      rw [List.filter_eq_nil_iff.mpr hnil]
    · rw [List.filter_cons_of_neg, ih hw.2 hmem]
      intro hm
      exact hw.1 c hmem ⟨c.key, (catMatchesExact_iff _ _).mp hm, by simp⟩

/-- Resubmitting the exact canonical key of a catalog entry resolves to
that entry. -/
theorem resolveCategory_key {cat : Catalog} (hw : WellFormed cat) {c : CatEntry} (hc : c ∈ cat) :
    resolveCategory c.key cat = .resolved c.key := by
  unfold resolveCategory
  rw [exactCands_key hw hc]

/-- Ambiguity candidates come from the catalog. -/
theorem resolveCategory_ambiguous_mem {s : String} {cat : Catalog} {cs : List CatEntry}
    (h : resolveCategory s cat = .ambiguous cs) : ∀ c ∈ cs, c ∈ cat := by
  intro c hcm
  unfold resolveCategory at h
  rcases hx : exactCands s cat with - | ⟨c₁, - | ⟨c₂, rest⟩⟩ <;> rw [hx] at h
  · rcases hy : tolCands s cat with - | ⟨d₁, - | ⟨d₂, rest'⟩⟩ <;> rw [hy] at h
    · cases h
    · cases h
    · cases h
      have hmem : c ∈ tolCands s cat := by rw [hy]; exact hcm
      exact List.mem_of_mem_filter hmem
  · cases h
  · cases h
    have hmem : c ∈ exactCands s cat := by rw [hx]; exact hcm
    exact List.mem_of_mem_filter hmem

/-- An ambiguity always carries at least two candidates, in particular
a non-empty list. -/
theorem resolveCategory_ambiguous_ne_nil {s : String} {cat : Catalog} {cs : List CatEntry}
    (h : resolveCategory s cat = .ambiguous cs) : cs ≠ [] := by
  unfold resolveCategory at h
  rcases hx : exactCands s cat with - | ⟨c₁, - | ⟨c₂, rest⟩⟩ <;> rw [hx] at h
  · rcases hy : tolCands s cat with - | ⟨d₁, - | ⟨d₂, rest'⟩⟩ <;> rw [hy] at h
    · cases h
    · cases h
    · cases h; simp
  · cases h
  · cases h; simp

/-- A reconstructed confirmation command parses back to the same Add
intent with the candidate key as its whole fragment. -/
theorem parse_mkOptionValue (a : ℚ) (k : String) :
    parseIntent (mkOptionValue a k) = .add a [k] := by
  unfold parseIntent mkOptionValue
  simp [hasAnyWord, extractAmount, fragTokens, wordsOf, isPrep]

/-- The second pass of a confirmation round-trip: the reconstructed
command of any catalog key resolves without a further confirmation. -/
theorem processCommand_option_resolves (cat : Catalog) (led : Ledger) (today : ℤ)
    {a : ℚ} {k : String} (ha : 0 < a) (hw : WellFormed cat)
    (hk : ∃ c ∈ cat, c.key = k) :
    ((processCommand cat led today (mkOptionValue a k)).1).needsConfirmation = false := by
  obtain ⟨c, hc, rfl⟩ := hk
  have hj : joinWords [c.key] = c.key := rfl
  simp only [processCommand, parse_mkOptionValue, if_neg (not_le.mpr ha), hj,
    resolveCategory_key hw hc, plainResponse]

/-- Claim C3: whenever a command answers with `needs_confirmation`, the
resubmission of the literal value of any returned option as a brand-new
transcript — against the ledger left by the first pass — yields a
response without `needs_confirmation`; never a second ambiguity. -/
theorem confirmation_roundtrip (cat : Catalog) (led : Ledger) (today : ℤ) (t : Transcript)
    (hw : WellFormed cat)
    (hc : ((processCommand cat led today t).1).needsConfirmation = true) :
    ∀ o ∈ (processCommand cat led today t).1.options,
      ((processCommand cat (processCommand cat led today t).2 today o.value).1).needsConfirmation
        = false := by
  intro o ho
  rcases hi : parseIntent t with ⟨a, f⟩ | - | ⟨p⟩ | - | - | - | -
  case add =>
    by_cases ha : a ≤ 0
    · simp [processCommand, hi, ha, failResponse] at hc
    · rcases hr : resolveCategory (joinWords f) cat with k | cs | -
      · simp [processCommand, hi, ha, hr, plainResponse] at hc
      · have hled : (processCommand cat led today t).2 = led := by
          simp [processCommand, hi, ha, hr]
        have hopts : (processCommand cat led today t).1.options =
            cs.map fun c => ⟨c.key, mkOptionValue a c.key⟩ := by
          simp [processCommand, hi, ha, hr, confirmResponse]
        rw [hopts] at ho
        obtain ⟨c, hcm, rfl⟩ := List.mem_map.mp ho
        rw [hled]
        exact processCommand_option_resolves cat led today (not_le.mp ha) hw
          ⟨c, resolveCategory_ambiguous_mem hr c hcm, rfl⟩
      · have hled : (processCommand cat led today t).2 = led := by
          simp [processCommand, hi, ha, hr]
        have hopts : (processCommand cat led today t).1.options =
            cat.map fun c => ⟨c.key, mkOptionValue a c.key⟩ := by
          simp [processCommand, hi, ha, hr, confirmResponse]
        rw [hopts] at ho
        obtain ⟨c, hcm, rfl⟩ := List.mem_map.mp ho
        rw [hled]
        exact processCommand_option_resolves cat led today (not_le.mp ha) hw ⟨c, hcm, rfl⟩
  case deleteLast =>
    by_cases he : led.isEmpty <;> simp [processCommand, hi, he, failResponse, plainResponse] at hc
  all_goals simp [processCommand, hi, failResponse, plainResponse] at hc

/-- Witness for C3: "add 300 to xyz" on a three-category catalog asks
for confirmation, and resubmitting the literal value of the food option
resolves without a second confirmation. -/
theorem confirmation_roundtrip_witness :
    ((processCommand [⟨"food", ["meal"], some 10000⟩, ⟨"transport", ["cab"], some 4000⟩,
        ⟨"shopping", [], some 5000⟩] [] 0
        [.word "add", .num 300, .word "to", .word "xyz"]).1).needsConfirmation = true ∧
    ((processCommand [⟨"food", ["meal"], some 10000⟩, ⟨"transport", ["cab"], some 4000⟩,
        ⟨"shopping", [], some 5000⟩]
        (processCommand [⟨"food", ["meal"], some 10000⟩, ⟨"transport", ["cab"], some 4000⟩,
          ⟨"shopping", [], some 5000⟩] [] 0
          [.word "add", .num 300, .word "to", .word "xyz"]).2 0
        (mkOptionValue 300 "food")).1).needsConfirmation = false := by
  refine ⟨by decide, ?_⟩
  exact confirmation_roundtrip _ [] 0 _ (by decide) (by decide)
    ⟨"food", mkOptionValue 300 "food"⟩ (by decide)

/-- Claim C5: a command whose category fragment resolves to zero or
several candidates is answered without an error — `needs_confirmation`
with a prompt and a non-empty options list, the zero-candidate case
offering every catalog category under the prompt "Which category did you
mean?" — and the ledger is left unchanged. -/
theorem ambiguity_not_error (cat : Catalog) (led : Ledger) (today : ℤ) (t : Transcript)
    (a : ℚ) (f : List String)
    (hp : parseIntent t = .add a f) (ha : 0 < a)
    (hr : (resolveCategory (joinWords f) cat = .noMatch ∧ cat ≠ []) ∨
          ∃ cs, resolveCategory (joinWords f) cat = .ambiguous cs) :
    (processCommand cat led today t).2 = led ∧
    ((processCommand cat led today t).1).needsConfirmation = true ∧
    (processCommand cat led today t).1.error = none ∧
    (processCommand cat led today t).1.success = true ∧
    (processCommand cat led today t).1.options ≠ [] ∧
    (resolveCategory (joinWords f) cat = .noMatch →
      (processCommand cat led today t).1.confirmationPrompt =
        some "Which category did you mean?" ∧
      (processCommand cat led today t).1.options.map (·.label) = cat.map (·.key)) := by
  have hnle := not_le.mpr ha
  rcases hr with ⟨hr, hne⟩ | ⟨cs, hr⟩
  · refine ⟨?_, ?_, ?_, ?_, ?_, fun _ => ⟨?_, ?_⟩⟩ <;>
      simp [processCommand, hp, hnle, hr, confirmResponse, hne, List.map_map]
  · have hcs := resolveCategory_ambiguous_ne_nil hr
    refine ⟨?_, ?_, ?_, ?_, ?_, fun hnm => absurd (hr.symm.trans hnm) (by simp)⟩ <;>
      simp [processCommand, hp, hnle, hr, confirmResponse, hcs]

/-- Witness for C5: "add 300 to xyz" against a three-category catalog —
the fragment "xyz" matches nothing, so the response asks "Which category
did you mean?" over all catalog categories and the ledger stays
empty. -/
theorem ambiguity_not_error_witness :
    (processCommand [⟨"food", ["meal"], some 10000⟩, ⟨"transport", ["cab"], some 4000⟩,
        ⟨"shopping", [], some 5000⟩] [⟨0, 50, "food", 0⟩] 0
        [.word "add", .num 300, .word "to", .word "xyz"]).2 = [⟨0, 50, "food", 0⟩] ∧
    ((processCommand [⟨"food", ["meal"], some 10000⟩, ⟨"transport", ["cab"], some 4000⟩,
        ⟨"shopping", [], some 5000⟩] [⟨0, 50, "food", 0⟩] 0
        [.word "add", .num 300, .word "to", .word "xyz"]).1).needsConfirmation = true := by
  have h := ambiguity_not_error
    [⟨"food", ["meal"], some 10000⟩, ⟨"transport", ["cab"], some 4000⟩,
      ⟨"shopping", [], some 5000⟩] [⟨0, 50, "food", 0⟩] 0
    [.word "add", .num 300, .word "to", .word "xyz"] 300 ["xyz"]
    (by decide) (by decide) (Or.inl ⟨by decide, by decide⟩)
  exact ⟨h.1, h.2.1⟩

/-- Every alert candidate produced from start index `i` carries an index
at least `i`. -/
theorem candsFrom_idx_ge (totals : List (String × ℚ)) :
    ∀ (cs : Catalog) (i : ℕ), ∀ a ∈ candsFrom totals i cs, i ≤ a.idx := by
  intro cs
  induction cs with
  | nil => intro i a ha; simp [candsFrom] at ha
  | cons c ds ih =>
    intro i a ha
    unfold candsFrom at ha
    rcases List.mem_append.mp ha with h | h
    · split at h
      · split at h
        · rcases List.mem_singleton.mp h with rfl
          exact le_refl _
        · simp at h
      · simp at h
    · exact (Nat.le_succ i).trans (ih (i + 1) a h)

/-- The alert candidates are listed in strictly increasing catalog
declaration order. -/
theorem candsFrom_pairwise_idx (totals : List (String × ℚ)) :
    ∀ (cs : Catalog) (i : ℕ),
      (candsFrom totals i cs).Pairwise fun a b => a.idx < b.idx := by
  intro cs
  induction cs with
  | nil => intro i; simp [candsFrom]
  | cons c ds ih =>
    intro i
    unfold candsFrom
    rw [List.pairwise_append]
    refine ⟨?_, ih (i + 1), ?_⟩
    · split
      · split <;> simp
      · simp
    · intro a ha b hb
      have hbi : i + 1 ≤ b.idx := candsFrom_idx_ge totals ds (i + 1) b hb
      have hai : a.idx = i := by
        split at ha
        · split at ha
          · rcases List.mem_singleton.mp ha with rfl; rfl
          · simp at ha
        · simp at ha
      omega

/-- Claim C4: the alert list is ordered by strictly descending
percentage with ties broken by catalog declaration order, and the
`budget_alert` field, when present, is the text of the head of that
list, whose percentage dominates every alert. -/
theorem budget_alert_ordering (cat : Catalog) (totals : List (String × ℚ)) :
    (budgetAlerts cat totals).Pairwise
      (fun a b => b.pct < a.pct ∨ (a.pct = b.pct ∧ a.idx < b.idx)) ∧
    ∀ a, (budgetAlerts cat totals).head? = some a →
      budgetAlert cat totals = some a.text ∧
      ∀ b ∈ budgetAlerts cat totals, b.pct ≤ a.pct := by
  have hsorted : (budgetAlerts cat totals).Pairwise alertRel :=
    List.sorted_insertionSort alertRel _
  have hperm : (budgetAlerts cat totals).Perm (candsFrom totals 0 cat) :=
    List.perm_insertionSort _ _
  have hnodup : (budgetAlerts cat totals).Pairwise fun a b => a.idx ≠ b.idx := by
    refine (List.Perm.pairwise_iff (fun h => h.symm) hperm).mpr ?_
    exact (candsFrom_pairwise_idx totals cat 0).imp Nat.ne_of_lt
  constructor
  · refine (hsorted.and hnodup).imp ?_
    rintro a b ⟨hr | ⟨he, hle⟩, hne⟩
    · exact Or.inl hr
    · exact Or.inr ⟨he, lt_of_le_of_ne hle hne⟩
  · intro a ha
    refine ⟨by unfold budgetAlert; rw [ha]; rfl, ?_⟩
    intro b hb
    rcases hl : budgetAlerts cat totals with - | ⟨a', rest⟩
    · rw [hl] at hb; cases hb
    · rw [hl] at ha hb hsorted
      have haa : a' = a := by simpa using ha
      subst haa
      rcases List.mem_cons.mp hb with rfl | hbr
      · exact le_refl _
      · rcases (List.pairwise_cons.mp hsorted).1 b hbr with h | ⟨he, -⟩
        · exact le_of_lt h
        · exact le_of_eq he.symm

/-- Witness for C4: with limits of 100 on `food` and `transport` and
spends of 90 and 150, the worst offender `transport` (150 %) heads the
list and is the single `budget_alert`. -/
theorem budget_alert_ordering_witness :
    budgetAlert [⟨"food", [], some 100⟩, ⟨"transport", [], some 100⟩]
        [("food", 90), ("transport", 150)] = some "transport: Over Budget" := by
  have e1 : (90 : ℚ) / 100 * 100 = 90 := by norm_num
  have e2 : (150 : ℚ) / 100 * 100 = 150 := by norm_num
  have hcands : candsFrom [("food", 90), ("transport", 150)] 0
      [⟨"food", [], some 100⟩, ⟨"transport", [], some 100⟩] =
      [⟨0, "food", 90, "food: Warning"⟩, ⟨1, "transport", 150, "transport: Over Budget"⟩] := by
    have hb1 : ("food" == "food") = true := by decide
    have hb2 : ("transport" == "food") = false := by decide
    have hb3 : ("transport" == "transport") = true := by decide
    have hs1 : "food" ++ ": " ++ "Warning" = "food: Warning" := rfl
    have hs2 : "transport" ++ ": " ++ "Over Budget" = "transport: Over Budget" := rfl
    simp only [candsFrom, List.lookup, alertText, hb1, hb2, hb3, hs1, hs2]
    norm_num
    exact ⟨rfl, rfl⟩
  have hhead : (budgetAlerts [⟨"food", [], some 100⟩, ⟨"transport", [], some 100⟩]
      [("food", 90), ("transport", 150)]).head? =
      some ⟨1, "transport", 150, "transport: Over Budget"⟩ := by
    unfold budgetAlerts
    rw [hcands]
    simp only [List.insertionSort, List.orderedInsert]
    rw [if_neg (by simp [alertRel]; norm_num)]
    rfl
  exact ((budget_alert_ordering [⟨"food", [], some 100⟩, ⟨"transport", [], some 100⟩]
    [("food", 90), ("transport", 150)]).2
    ⟨1, "transport", 150, "transport: Over Budget"⟩ hhead).1

end VFT














